import Mathlib

/-!
# A verification development of the `sylk_parser` SYLK reader

Shallow embedding of `src/sylk_parser/sylk.py`: the `Table` sparse grid,
the `SYLK` document state, and the per-line record dispatch
(`parseline` with its `_id_field`, `_f_field`, `_c_field`, `_p_fields`
handlers), together with models of the Python library operations the
source relies on (list indexing, `int()`, `eval` on literal tokens, and
the `time` module under a fixed timezone).

Python machine behaviour is modelled as follows:
* Python `list` indexing and assignment (including negative indices and
  `IndexError`) become `listGetI` / `listSetI` returning `Option`;
* fallible operations return `Except PyError`;
* `int()` and `eval` of a literal token are modelled by `pyInt` and
  `pyEval` over the literal grammar the spec assigns to cell tokens;
* `time.mktime` / `time.localtime` / `time.strftime` are modelled as
  proleptic-Gregorian calendar arithmetic in a fixed timezone with no
  DST offset.
-/

namespace SylkParser

/-! ## Python list primitives

`l[i]` and `l[i] = v` with Python semantics: a negative index counts
from the end; an index that is still out of range raises `IndexError`,
modelled as `none`. -/

def listGetI {α : Type} (l : List α) (i : Int) : Option α :=
  let j : Int := if i < 0 then i + l.length else i
  if 0 ≤ j then l[j.toNat]? else none

def listSetI {α : Type} (l : List α) (i : Int) (v : α) : Option (List α) :=
  let j : Int := if i < 0 then i + l.length else i
  if 0 ≤ j ∧ j < l.length then some (l.set j.toNat v) else none

inductive PyError : Type where
  | indexError
  | valueError
  | syntaxError
deriving DecidableEq, Repr

/-! ## The `Table` grid -/

/-- `Table` from the source: a list of rows of cell strings. -/
structure Table where
  rows : List (List String)
deriving DecidableEq, Repr

def Table.empty : Table := ⟨[]⟩

/-- `Table.__setitem__` from the source, at 1-based coordinates `(x, y)`:
grow the row list up to `y` with fresh rows of `x` blank cells, then, if
the value is not blank, widen row `y` up to `x` cells and store the
value.  `none` models the `IndexError` Python raises when `rows[y-1]` or
the cell assignment indexes out of range (possible for non-positive
coordinates). -/
def Table.setitem (t : Table) (x y : Int) (val : String) : Option Table :=
  let ox := x - 1
  let oy := y - 1
  let rows0 := t.rows ++ List.replicate (y.toNat - t.rows.length) (List.replicate x.toNat " ")
  (listGetI rows0 oy).bind fun row =>
    if val = "" ∨ val = " " then some ⟨rows0⟩
    else
      let row2 := if (row.length : Int) < x then row ++ List.replicate (x.toNat - row.length) " " else row
      (listSetI row2 ox val).bind fun row3 =>
        (listSetI rows0 oy row3).map fun rows1 => (⟨rows1⟩ : Table)

/-- Total restatement of `Table.setitem` for 1-based `Nat` coordinates;
`setitem_eq_setitemN` below shows it agrees with the embedded source
whenever `1 ≤ x` and `1 ≤ y`. -/
def setitemN (t : Table) (x y : Nat) (v : String) : Table :=
  let rows0 := t.rows ++ List.replicate (y - t.rows.length) (List.replicate x " ")
  if v = "" ∨ v = " " then ⟨rows0⟩
  else
    let row := rows0.getD (y - 1) []
    let row2 := if row.length < x then row ++ List.replicate (x - row.length) " " else row
    ⟨rows0.set (y - 1) (row2.set (x - 1) v)⟩

/-- Observation function: read the cell at 1-based coordinates `(x, y)`.
Coordinate `0` is not a cell. -/
def Table.getCell (t : Table) (x y : Nat) : Option String :=
  match x, y with
  | x + 1, y + 1 => (t.rows[y]?).bind (fun r => r[x]?)
  | _, _ => none

/-- A finite sequence of cell writes `Table[(x, y)] = v`, applied left to
right; fails if any single write raises. -/
def applyWrites (t : Table) : List (Nat × Nat × String) → Option Table
  | [] => some t
  | (x, y, v) :: ws => (t.setitem x y v).bind fun t2 => applyWrites t2 ws

/-! ## `SYLK.escape` and literal evaluation

`escape` replaces each quote character inside a quoted token by the
four-character sequence `\"\"` (the `re.sub('"', '\\"\\"', ...)` of the
source: both `\"` replacement escapes are unknown non-letter escapes and
are kept verbatim by `re`). -/

def quoteSub : List Char → List Char
  | [] => []
  | c :: rest =>
    if c = '"' then '\\' :: '"' :: '\\' :: '"' :: quoteSub rest
    else c :: quoteSub rest

/-- `SYLK.escape` from the source: a token starting with `"` has its
inner part (all but first and last character) rewritten by `quoteSub`
and is re-wrapped in quotes; any other token is returned unchanged. -/
def escape (s : String) : String :=
  match s.data with
  | '"' :: rest => String.mk ('"' :: (quoteSub rest.dropLast ++ ['"']))
  | _ => s

/-- Claim-side rendering: each quote character duplicated, all other
characters kept.  `c7_amended_escape_doubles` shows this is what the
escape-then-evaluate pipeline produces for a quoted token. -/
def doubleQuotes : List Char → List Char
  | [] => []
  | c :: rest =>
    if c = '"' then '"' :: '"' :: doubleQuotes rest
    else c :: doubleQuotes rest

/-- Result of evaluating a cell token. `pfloat` carries the raw token;
no claim depends on float formatting. -/
inductive PyVal : Type where
  | pint (n : Int)
  | pfloat (raw : String)
  | pstr (s : String)
deriving DecidableEq, Repr

/-- One escape sequence inside a Python double-quoted string literal:
`\"` and `\\` denote the bare character, any other escape is kept with
its backslash (as Python does for unrecognized escapes). -/
def escSeq (c : Char) : List Char :=
  if c = '"' ∨ c = '\\' then [c] else ['\\', c]

/-- Scan the body of a double-quoted literal (opening quote already
consumed): the closing quote must end the token. -/
def strLitAux : List Char → Option (List Char)
  | [] => none
  | c :: rest =>
    if c = '\\' then
      match rest with
      | [] => none
      | e :: rest2 => (strLitAux rest2).map (fun tl => escSeq e ++ tl)
    else if c = '"' then (if rest.isEmpty then some [] else none)
    else (strLitAux rest).map (fun tl => c :: tl)

def parseDigits (cs : List Char) : Option Nat :=
  if cs.isEmpty then none
  else if cs.all Char.isDigit then
    some (cs.foldl (fun a c => a * 10 + (c.toNat - 48)) 0)
  else none

/-- Python `int(s)` on a decimal token: optional sign, then digits;
anything else raises `ValueError`. -/
def pyInt (s : String) : Except PyError Int :=
  match s.data with
  | '-' :: rest =>
    match parseDigits rest with
    | some n => .ok (-(n : Int))
    | none => .error .valueError
  | '+' :: rest =>
    match parseDigits rest with
    | some n => .ok (n : Int)
    | none => .error .valueError
  | cs =>
    match parseDigits cs with
    | some n => .ok (n : Int)
    | none => .error .valueError

def isFloatCore (cs : List Char) : Bool :=
  let a := cs.takeWhile Char.isDigit
  let rest := cs.dropWhile Char.isDigit
  match rest with
  | '.' :: b => !a.isEmpty && !b.isEmpty && b.all Char.isDigit
  | _ => false

def isFloatTok (cs : List Char) : Bool :=
  match cs with
  | '-' :: rest => isFloatCore rest
  | _ => isFloatCore cs

/-- Modelled from the spec: the source evaluates a cell token with
Python `eval`; per §4.1 only the literal grammar matters (integer,
float, or double-quoted string).  A token fitting none of these is a
fatal evaluation error. -/
def pyEval (s : String) : Except PyError PyVal :=
  match s.data with
  | [] => .error .syntaxError
  | '"' :: rest =>
    match strLitAux rest with
    | some cs => .ok (.pstr (String.mk cs))
    | none => .error .syntaxError
  | cs =>
    match pyInt s with
    | .ok n => .ok (.pint n)
    | .error _ => if isFloatTok cs then .ok (.pfloat s) else .error .syntaxError

/-! ## The `time` module, modelled

Civil-calendar conversions (proleptic Gregorian, Hinnant's algorithms,
truncating `Int` division exactly as in the reference C++).  `mktime`
and `localtime` are modelled in a fixed timezone with zero offset and no
DST, so `mktime` is days-from-epoch times 86400 plus the time-of-day
fields. -/

def daysFromCivil (y m d : Int) : Int :=
  let y := if m ≤ 2 then y - 1 else y
  let era := (if 0 ≤ y then y else y - 399) / 400
  let yoe := y - era * 400
  let doy := (153 * (if 2 < m then m - 3 else m + 9) + 2) / 5 + d - 1
  let doe := yoe * 365 + yoe / 4 - yoe / 100 + doy
  era * 146097 + doe - 719468

def civilFromDays (z : Int) : Int × Int × Int :=
  let z := z + 719468
  let era := (if 0 ≤ z then z else z - 146096) / 146097
  let doe := z - era * 146097
  let yoe := (doe - doe / 1460 + doe / 36524 - doe / 146096) / 365
  let y := yoe + era * 400
  let doy := doe - (365 * yoe + yoe / 4 - yoe / 100)
  let mp := (5 * doy + 2) / 153
  let d := doy - (153 * mp + 2) / 5 + 1
  let m := if mp < 10 then mp + 3 else mp - 9
  (if m ≤ 2 then y + 1 else y, m, d)

/-- Modelled from the spec: `time.mktime` on a 9-field struct-time
tuple, fixed timezone, no DST. -/
def mktime (tp : List Int) : Int :=
  match tp with
  | y :: m :: d :: hh :: mi :: ss :: _ =>
    daysFromCivil y m d * 86400 + hh * 3600 + mi * 60 + ss
  | _ => 0

/-- Modelled from the spec: the calendar date of `time.localtime secs`,
fixed timezone.  The timeline is divided into civil days by flooring. -/
def localtimeDate (secs : Int) : Int × Int × Int :=
  civilFromDays (secs.fdiv 86400)

def pad2 (n : Int) : String :=
  if n < 10 then "0" ++ toString n else toString n

/-- The fixed display format of the source (`SYLK.date_output`). -/
def date_output : String := "%d/%m/%Y"

/-- `time.strftime "%d/%m/%Y"` on a (year, month, day) triple. -/
def strftimeDMY (ymd : Int × Int × Int) : String :=
  pad2 ymd.2.2 ++ "/" ++ pad2 ymd.2.1 ++ "/" ++ toString ymd.1

/-! ## The `SYLK` document state -/

/-- `SYLK.unixepoch`: when time began. -/
def unixepoch : List Int := [1970, 1, 1, 0, 0, 0, 0, 0, 0]

/-- `SYLK.macepoch`. -/
def macepoch : List Int := [1904, 1, 1, 0, 0, 0, 0, 0, 0]

/-- `SYLK.pcepoch` (pure fiction, per the source). -/
def pcepoch : List Int := [1900, 1, 1, 0, 0, 0, 0, 0, 0]

/-- `SYLK.knownformats`: map from SYLK format strings to data types.
The source writes it as a `dict` literal; the two duplicated time
entries carry identical values, so association-list lookup agrees with
the dict. -/
def knownformats : List (String × String) := [
  ("General", "string"),
  ("0", "int"),
  ("0.00", "float"),
  ("#,##0", "int"),
  ("#,##0.00", "float"),
  ("\"$\"#,##0\\ ;;\\(\"$\"#,##0\\,", "float"),
  ("\"$\"#,##0.00\\ ;;\\(\"$\"#,##0.00\\,", "float"),
  ("0%", "float"),
  ("0.00%", "float"),
  ("0.00E+00", "float"),
  ("m/d/yy", "date"),
  ("d-mmm-yy", "date"),
  ("d-mmm", "date"),
  ("mmm-yy", "date"),
  ("h:mm AM/PM", "time"),
  ("h:mm:ss AM/PM", "time"),
  ("h:mm", "time"),
  ("h:mm:ss", "time"),
  ("hh:mm AM/PM", "time"),
  ("hh:mm:ss AM/PM", "time"),
  ("h:mm", "time"),
  ("h:mm:ss", "time"),
  ("m/d/yy h:mm", "datetime"),
  ("m-dd-yy", "date"),
  ("m-dd", "date"),
  ("\"$\"#,##0 ;;[Red](\"$\"#,##0,", "float"),
  ("\"$\"#,##0.00 ;;[Red](\"$\"#,##0.00,", "float"),
  ("mmm d, yyyy", "date"),
  ("mmmm d, yyyy", "date"),
  ("ddd, mmm d, yyyy", "date"),
  ("dddd, mmmm d, yyyy", "date"),
  ("d, mmmm yyyy", "date")]

def lookupKnown (fmt : String) : Option String :=
  knownformats.lookup fmt

/-- The heuristic type guess of `SYLK._p_fields` for a format string not
in `knownformats` (the hack to guess type, verbatim from the source'
if/elif chain). -/
def guessType (fmt : String) : String :=
  let hasY := fmt.data.contains 'y'
  let hasD := fmt.data.contains 'd'
  let hasH := fmt.data.contains 'h'
  let hasZ := fmt.data.contains '0'
  let hasP := fmt.data.contains '.'
  if (hasD || hasY) && hasH then "datetime"
  else if hasD || hasY then "date"
  else if hasH then "time"
  else if hasP && hasZ then "float"
  else if hasZ then "int"
  else "string"

/-- The inference cascade exactly as the spec words it (§4.1, `P`
record): `y` or `d` together with `h` gives datetime; `y` or `d` alone
gives date; `h` alone gives time; `.` together with `0` gives float;
`0` alone gives int; otherwise string — first match wins. -/
def specInferKind (fmt : String) : String :=
  if (fmt.data.contains 'y' || fmt.data.contains 'd') && fmt.data.contains 'h' then "datetime"
  else if fmt.data.contains 'y' || fmt.data.contains 'd' then "date"
  else if fmt.data.contains 'h' then "time"
  else if fmt.data.contains '.' && fmt.data.contains '0' then "float"
  else if fmt.data.contains '0' then "int"
  else "string"

/-- Document state: the fields set by `SYLK.__init__`. -/
structure SYLK where
  datebase : List Int
  printformats : List (String × String)
  currentformat : String
  currenttype : String
  curx : Int
  cury : Int
  data : Table
  unknown : List (String × List String)
deriving DecidableEq, Repr

/-- `SYLK.__init__`: unix epoch, empty registry, empty type, cursor at
`(0, 0)`, empty table, no unknowns. -/
def initSYLK : SYLK :=
  { datebase := unixepoch
    printformats := []
    currentformat := ""
    currenttype := ""
    curx := 0
    cury := 0
    data := Table.empty
    unknown := [] }

/-- `SYLK.addunknown`: record `subfld` under `fld` in the diagnostic
map.  Python dicts keep insertion order and re-setting an existing key
is a no-op for ordering, hence the association-list model. -/
def addUnknownEntry : List (String × List String) → String → String → List (String × List String)
  | [], fld, sub => [(fld, [sub])]
  | (k, subs) :: rest, fld, sub =>
    if k = fld then (k, if subs.contains sub then subs else subs ++ [sub]) :: rest
    else (k, subs) :: addUnknownEntry rest fld sub

def SYLK.addunknown (st : SYLK) (fld sub : String) : SYLK :=
  { st with unknown := addUnknownEntry st.unknown fld sub }

/-- `SYLK._id_field`: choose the date epoch from the first six
characters of the first sub-field. -/
def SYLK.id_field (st : SYLK) (fields : List String) : Except PyError SYLK :=
  match fields[1]? with
  | none => .error .indexError
  | some f1 =>
    let pre := String.mk (f1.data.take 6)
    if pre = "PClari" ∨ pre = "PApple" then .ok { st with datebase := macepoch }
    else if pre = "P Sage" then .ok { st with datebase := pcepoch }
    else .ok st

/-- One sub-field of an `F` record (`SYLK._f_field` loop body). -/
def SYLK.f_field_sub (st : SYLK) (f : String) : Except PyError SYLK :=
  match f.data with
  | [] => .error .indexError
  | ftd :: valcs =>
    let val := String.mk valcs
    if ftd = 'X' then do
      let n ← pyInt val
      .ok { st with curx := n }
    else if ftd = 'Y' then do
      let n ← pyInt val
      .ok { st with cury := n }
    else if ftd = 'P' then do
      let n ← pyInt val
      match listGetI st.printformats n with
      | some pr => .ok { st with currentformat := pr.1, currenttype := pr.2 }
      | none => .error .indexError
    else .ok (st.addunknown "F" (String.mk [ftd]))

def SYLK.f_field (st : SYLK) (fields : List String) : Except PyError SYLK :=
  (fields.drop 1).foldlM SYLK.f_field_sub st

/-- One sub-field of a `C` record (`SYLK._c_field` loop body).  The `K`
branch evaluates the escaped token; an integer under current type
`"date"` is re-rendered as a day offset from the date base. -/
def SYLK.c_field_sub (st : SYLK) (f : String) : Except PyError SYLK :=
  match f.data with
  | [] => .error .indexError
  | ftd :: valcs =>
    let val := String.mk valcs
    if ftd = 'X' then do
      let n ← pyInt val
      .ok { st with curx := n }
    else if ftd = 'Y' then do
      let n ← pyInt val
      .ok { st with cury := n }
    else if ftd = 'K' then do
      let v ← pyEval (escape val)
      let rendered :=
        match v with
        | .pint n =>
          if st.currenttype = "date" then
            strftimeDMY (localtimeDate (mktime st.datebase + n * 24 * 60 * 60))
          else toString n
        | .pfloat raw => raw
        | .pstr s => s
      match st.data.setitem st.curx st.cury rendered with
      | some t => .ok { st with data := t }
      | none => .error .indexError
    else .ok (st.addunknown "C" (String.mk [ftd]))

def SYLK.c_field (st : SYLK) (fields : List String) : Except PyError SYLK :=
  (fields.drop 1).foldlM SYLK.c_field_sub st

/-- `SYLK._p_fields`: a `P` sub-field is a format pattern; strip
backslashes, then consult `knownformats` or fall back to `guessType`,
and append the pair to the registry. -/
def SYLK.p_fields (st : SYLK) (fields : List String) : Except PyError SYLK :=
  match fields[1]? with
  | none => .error .indexError
  | some f1 =>
    match f1.data with
    | [] => .error .indexError
    | c :: rest =>
      if c = 'P' then
        let fmt := String.mk (rest.filter (fun ch => ch ≠ '\\'))
        match lookupKnown fmt with
        | some k => .ok { st with printformats := st.printformats ++ [(fmt, k)] }
        | none => .ok { st with printformats := st.printformats ++ [(fmt, guessType fmt)] }
      else .ok (st.addunknown "P" (String.mk [c]))

/-- `re.split("(?i);(?=[a-z])", line)`: split at each semicolon that is
immediately followed by an ASCII letter; the semicolon is consumed, the
letter starts the next field. -/
def splitFieldsAux : List Char → List Char → List String
  | acc, [] => [String.mk acc.reverse]
  | acc, c :: rest =>
    if c = ';' then
      match rest with
      | [] => [String.mk (c :: acc).reverse]
      | d :: _ =>
        if d.isAlpha then String.mk acc.reverse :: splitFieldsAux [] rest
        else splitFieldsAux (c :: acc) rest
    else splitFieldsAux (c :: acc) rest

def splitFields (line : String) : List String :=
  splitFieldsAux [] line.data

/-- `SYLK.parseline`: split the line into fields and dispatch on the
record tag.  As in the source, the `ID` check is separate from the main
`F`/`C`/`P` chain, so an `ID` record also reaches the unknown-field
accumulation branch. -/
def SYLK.parseline (st : SYLK) (line : String) : Except PyError SYLK := do
  match splitFields line with
  | [] => .error .indexError
  | f0 :: rest =>
    let fields := f0 :: rest
    let st1 ← if f0 = "ID" then st.id_field fields else .ok st
    if f0 = "F" then st1.f_field fields
    else if f0 = "C" then st1.c_field fields
    else if f0 = "P" then st1.p_fields fields
    else .ok (rest.foldl (fun s f => s.addunknown f0 f) st1)

/-- `re.sub("[\r\n]+", "\n", stream)`: collapse every run of CR/LF
characters to a single newline.  The flag records whether the previous
character was part of such a run. -/
def collapseNL : Bool → List Char → List Char
  | _, [] => []
  | inRun, c :: rest =>
    if c = '\r' ∨ c = '\n' then
      if inRun then collapseNL true rest
      else '\n' :: collapseNL true rest
    else c :: collapseNL false rest

/-- `.split("\n")` on a character list. -/
def linesOfAux : List Char → List Char → List String
  | acc, [] => [String.mk acc.reverse]
  | acc, c :: rest =>
    if c = '\n' then String.mk acc.reverse :: linesOfAux [] rest
    else linesOfAux (c :: acc) rest

/-- `SYLK.parse`: normalize line endings, split into lines, and feed
each line in order to `parseline`. -/
def SYLK.parse (st : SYLK) (stream : String) : Except PyError SYLK :=
  (linesOfAux [] (collapseNL false stream.data)).foldlM SYLK.parseline st

/-! ## General lemmas -/

theorem mk_data_eq (s : String) : String.mk s.data = s := rfl

theorem listGetI_nonneg {α : Type} (l : List α) (i : Int) (h0 : 0 ≤ i) :
    listGetI l i = l[i.toNat]? := by
  unfold listGetI
  have h1 : ¬ i < 0 := by omega
  simp [h1, h0]

theorem listSetI_inb {α : Type} (l : List α) (i : Int) (v : α)
    (h0 : 0 ≤ i) (hlt : i < (l.length : Int)) :
    listSetI l i v = some (l.set i.toNat v) := by
  unfold listSetI
  have h1 : ¬ i < 0 := by omega
  simp [h1, h0, hlt]

theorem foldlM_singleton {σ α : Type} (f : σ → α → Except PyError σ) (s : σ) (a : α) :
    List.foldlM f s [a] = f s a := by
  cases h : f s a <;> simp [List.foldlM, h, Bind.bind, Except.bind, Pure.pure, Except.pure]

/-- `_f_field` on the sub-field `P` followed by a numeral: convert with
`int()` and look the index up in the registry. -/
theorem f_field_sub_P (st : SYLK) (s : String) :
    SYLK.f_field_sub st ("P" ++ s) =
      (match pyInt s with
        | .ok n =>
          (match listGetI st.printformats n with
            | some pr => Except.ok { st with currentformat := pr.1, currenttype := pr.2 }
            | none => Except.error PyError.indexError)
        | .error e => Except.error e) := by
  have hdata : ("P" ++ s).data = 'P' :: s.data := rfl
  simp only [SYLK.f_field_sub, hdata, mk_data_eq]
  cases h : pyInt s <;> simp [h, Bind.bind, Except.bind]

/-- `_c_field` on the sub-field `K` followed by a value token: escape,
evaluate, render (dates specially), and write at the cursor. -/
theorem c_field_sub_K (st : SYLK) (tok : String) :
    SYLK.c_field_sub st ("K" ++ tok) =
      (match pyEval (escape tok) with
        | .ok v =>
          (match st.data.setitem st.curx st.cury
              (match v with
                | .pint n =>
                  if st.currenttype = "date" then
                    strftimeDMY (localtimeDate (mktime st.datebase + n * 24 * 60 * 60))
                  else toString n
                | .pfloat raw => raw
                | .pstr s2 => s2) with
            | some t => Except.ok { st with data := t }
            | none => Except.error PyError.indexError)
        | .error e => Except.error e) := by
  have hdata : ("K" ++ tok).data = 'K' :: tok.data := rfl
  simp only [SYLK.c_field_sub, hdata, mk_data_eq]
  cases h : pyEval (escape tok) <;> simp [h, Bind.bind, Except.bind]

/-- `parseline` on a line whose tag is `F` dispatches to `_f_field`. -/
theorem parseline_F (st : SYLK) (line : String) (subs : List String)
    (hsplit : splitFields line = "F" :: subs) :
    st.parseline line = st.f_field ("F" :: subs) := by
  unfold SYLK.parseline
  rw [hsplit]
  simp [show ("F" : String) ≠ "ID" by decide, Bind.bind, Except.bind]

/-- `parseline` on a line whose tag is `C` dispatches to `_c_field`. -/
theorem parseline_C (st : SYLK) (line : String) (subs : List String)
    (hsplit : splitFields line = "C" :: subs) :
    st.parseline line = st.c_field ("C" :: subs) := by
  unfold SYLK.parseline
  rw [hsplit]
  simp [show ("C" : String) ≠ "ID" by decide, show ("C" : String) ≠ "F" by decide,
    Bind.bind, Except.bind]

/-! ## Table lemmas -/

/-- For 1-based coordinates the embedded `Table.__setitem__` never
raises and agrees with the total description `setitemN`. -/
theorem setitem_eq_setitemN (t : Table) (x y : Int) (v : String)
    (hx : 1 ≤ x) (hy : 1 ≤ y) :
    t.setitem x y v = some (setitemN t x.toNat y.toNat v) := by
  unfold Table.setitem setitemN
  set rows0 := t.rows ++ List.replicate (y.toNat - t.rows.length) (List.replicate x.toNat " ")
    with h0
  have hlen : rows0.length = max t.rows.length y.toNat := by
    rw [h0]; simp; omega
  have hYlt : y.toNat - 1 < rows0.length := by rw [hlen]; omega
  have htn : (y - 1).toNat = y.toNat - 1 := by omega
  have hget : listGetI rows0 (y - 1) = some (rows0.getD (y.toNat - 1) []) := by
    rw [listGetI_nonneg rows0 (y - 1) (by omega), htn, List.getElem?_eq_getElem hYlt]
    rw [List.getD_eq_getElem rows0 [] hYlt]
  dsimp only
  rw [hget, Option.some_bind]
  by_cases hv : v = "" ∨ v = " "
  · simp only [if_pos hv]
  · simp only [if_neg hv]
    set row := rows0.getD (y.toNat - 1) [] with hrowdef
    have hxn : (x - 1).toNat = x.toNat - 1 := by omega
    by_cases hw : row.length < x.toNat
    · have hwI : (row.length : Int) < x := by omega
      simp only [if_pos hwI, if_pos hw]
      set row2 := row ++ List.replicate (x.toNat - row.length) " " with h2
      have hr2 : x.toNat ≤ row2.length := by rw [h2]; simp; omega
      rw [listSetI_inb row2 (x - 1) v (by omega) (by omega),
        Option.some_bind,
        listSetI_inb rows0 (y - 1) _ (by omega) (by omega),
        Option.map_some', hxn, htn]
    · have hwI : ¬ ((row.length : Int) < x) := by omega
      simp only [if_neg hwI, if_neg hw]
      rw [listSetI_inb row (x - 1) v (by omega) (by omega),
        Option.some_bind,
        listSetI_inb rows0 (y - 1) _ (by omega) (by omega),
        Option.map_some', hxn, htn]

theorem setitemN_length (t : Table) (x y : Nat) (v : String) :
    (setitemN t x y v).rows.length = max t.rows.length y := by
  unfold setitemN
  by_cases hv : v = "" ∨ v = " " <;> simp [hv] <;> omega

theorem setitemN_get_ne (t : Table) (x y : Nat) (v : String) (i : Nat)
    (hi : i < t.rows.length) (hne : i ≠ y - 1) :
    (setitemN t x y v).rows[i]? = t.rows[i]? := by
  unfold setitemN
  by_cases hv : v = "" ∨ v = " "
  · simp only [if_pos hv]
    exact List.getElem?_append_left hi
  · simp only [if_neg hv]
    rw [List.getElem?_set_ne (Ne.symm hne)]
    exact List.getElem?_append_left hi

theorem setitemN_row_mono (t : Table) (x y : Nat) (v : String) (i : Nat) (r : List String)
    (hr : t.rows[i]? = some r) :
    ∃ r2, (setitemN t x y v).rows[i]? = some r2 ∧ r.length ≤ r2.length := by
  have hi : i < t.rows.length := by
    by_contra hcon
    rw [List.getElem?_eq_none (by omega)] at hr
    exact absurd hr (by simp)
  by_cases hne : i = y - 1
  case neg => exact ⟨r, by rw [setitemN_get_ne t x y v i hi hne]; exact hr, le_refl _⟩
  case pos =>
    unfold setitemN
    by_cases hv : v = "" ∨ v = " "
    · refine ⟨r, ?_, le_refl _⟩
      simp only [if_pos hv]
      rw [List.getElem?_append_left hi]
      exact hr
    · simp only [if_neg hv]
      set rows0 := t.rows ++ List.replicate (y - t.rows.length) (List.replicate x " ")
        with h0
      have hi0 : i < rows0.length := by rw [h0]; simp; omega
      have hsome : rows0[i]? = some r := by
        rw [h0, List.getElem?_append_left hi]; exact hr
      have hrow : rows0.getD i [] = r := by
        rw [List.getD_eq_getElem?_getD, hsome]; rfl
      rw [← hne, hrow]
      refine ⟨(if r.length < x then r ++ List.replicate (x - r.length) " " else r).set (x - 1) v,
        List.getElem?_set_self hi0, ?_⟩
      by_cases hw : r.length < x <;> simp [hw]

theorem setitemN_width (t : Table) (x y : Nat) (v : String)
    (hy : 1 ≤ y) (hv : ¬(v = "" ∨ v = " ")) :
    ∃ r2, (setitemN t x y v).rows[y - 1]? = some r2 ∧ x ≤ r2.length := by
  unfold setitemN
  simp only [if_neg hv]
  set rows0 := t.rows ++ List.replicate (y - t.rows.length) (List.replicate x " ")
    with h0
  have hYlt : y - 1 < rows0.length := by rw [h0]; simp; omega
  set row := rows0.getD (y - 1) [] with hrow
  refine ⟨(if row.length < x then row ++ List.replicate (x - row.length) " " else row).set (x - 1) v,
    List.getElem?_set_self hYlt, ?_⟩
  by_cases hw : row.length < x <;> simp [hw] <;> omega

theorem setitemN_target (t : Table) (x y : Nat) (v : String)
    (hx : 1 ≤ x) (hy : 1 ≤ y) (hv1 : v ≠ "") (hv2 : v ≠ " ") :
    (setitemN t x y v).getCell x y = some v := by
  obtain ⟨a, rfl⟩ : ∃ a, x = a + 1 := ⟨x - 1, by omega⟩
  obtain ⟨b, rfl⟩ : ∃ b, y = b + 1 := ⟨y - 1, by omega⟩
  have hv : ¬(v = "" ∨ v = " ") := fun h => h.elim hv1 hv2
  show ((setitemN t (a + 1) (b + 1) v).rows[b]?).bind (fun r => r[a]?) = some v
  unfold setitemN
  simp only [if_neg hv, Nat.add_sub_cancel]
  set rows0 := t.rows ++ List.replicate ((b + 1) - t.rows.length) (List.replicate (a + 1) " ")
    with h0
  have hb : b < rows0.length := by rw [h0]; simp; omega
  rw [List.getElem?_set_self hb, Option.some_bind]
  set row := rows0.getD b [] with hrow
  have hlt : a < (if row.length < a + 1 then
      row ++ List.replicate ((a + 1) - row.length) " " else row).length := by
    by_cases hw : row.length < a + 1 <;> simp [hw] <;> omega
  exact List.getElem?_set_self hlt

theorem setitemN_fresh (t : Table) (x y : Nat) (v : String)
    (hx : 1 ≤ x) (hy : 1 ≤ y) (a b : Nat)
    (hne : ¬(x = a + 1 ∧ y = b + 1)) :
    (setitemN t x y v).getCell (a + 1) (b + 1) = t.getCell (a + 1) (b + 1) ∨
    (setitemN t x y v).getCell (a + 1) (b + 1) = some " " := by
  have hgc : ∀ u : Table, u.getCell (a + 1) (b + 1) = (u.rows[b]?).bind (fun r => r[a]?) :=
    fun u => rfl
  simp only [hgc]
  unfold setitemN
  set rows0 := t.rows ++ List.replicate (y - t.rows.length) (List.replicate x " ")
    with h0
  have main : ((rows0[b]?).bind (fun r => r[a]?) = (t.rows[b]?).bind (fun r => r[a]?)) ∨
      ((rows0[b]?).bind (fun r => r[a]?) = some " ") := by
    by_cases hb1 : b < t.rows.length
    · rw [h0, List.getElem?_append_left hb1]
      exact Or.inl rfl
    · have htn : t.rows[b]? = none := List.getElem?_eq_none (by omega)
      by_cases hb2 : b < rows0.length
      · have hrep : rows0[b]? = some (List.replicate x " ") := by
          rw [h0] at hb2 ⊢
          simp at hb2
          rw [List.getElem?_append_right (by omega), List.getElem?_replicate, if_pos (by omega)]
        rw [hrep, htn, Option.some_bind]
        by_cases ha : a < x
        · exact Or.inr (by rw [List.getElem?_replicate, if_pos ha])
        · refine Or.inl ?_
          rw [List.getElem?_replicate, if_neg ha]
          rfl
      · rw [List.getElem?_eq_none (by omega), htn]
        exact Or.inl rfl
  by_cases hv : v = "" ∨ v = " "
  · simp only [if_pos hv]
    exact main
  · simp only [if_neg hv]
    by_cases hby : b = y - 1
    case neg =>
      rw [List.getElem?_set_ne (by omega)]
      exact main
    case pos =>
      have hyb : y = b + 1 := by omega
      have hax : x ≠ a + 1 := fun h => hne ⟨h, hyb⟩
      have hb2 : b < rows0.length := by rw [h0]; simp; omega
      rw [← hby, List.getElem?_set_self hb2, Option.some_bind,
        List.getElem?_set_ne (show x - 1 ≠ a by omega)]
      set row := rows0.getD b [] with hrowd
      by_cases hb1 : b < t.rows.length
      · have hsome : rows0[b]? = some (t.rows.get ⟨b, hb1⟩) := by
          rw [h0, List.getElem?_append_left hb1, List.getElem?_eq_getElem hb1]
          simp
        have hrow : row = t.rows.get ⟨b, hb1⟩ := by
          rw [hrowd, List.getD_eq_getElem?_getD, hsome]; rfl
        have hget : t.rows[b]? = some (t.rows.get ⟨b, hb1⟩) := by
          rw [List.getElem?_eq_getElem hb1]; simp
        rw [hget, Option.some_bind]
        by_cases haw : a < row.length
        · refine Or.inl ?_
          by_cases hw : row.length < x
          · rw [if_pos hw, List.getElem?_append_left haw, hrow]
          · rw [if_neg hw, hrow]
        · by_cases hw : row.length < x
          · rw [if_pos hw, List.getElem?_append_right (by omega), List.getElem?_replicate]
            by_cases hpad : a - row.length < x - row.length
            · exact Or.inr (by rw [if_pos hpad])
            · refine Or.inl ?_
              rw [if_neg hpad, ← hrow, List.getElem?_eq_none (by omega)]
          · refine Or.inl ?_
            rw [if_neg hw, ← hrow]
      · have hrep : rows0[b]? = some (List.replicate x " ") := by
          have hb2' := hb2
          rw [h0] at hb2' ⊢
          simp at hb2'
          rw [List.getElem?_append_right (by omega), List.getElem?_replicate, if_pos (by omega)]
        have hrow : row = List.replicate x " " := by
          rw [hrowd, List.getD_eq_getElem?_getD, hrep]; rfl
        have htn : t.rows[b]? = none := List.getElem?_eq_none (by omega)
        rw [htn]
        have hwn : ¬ row.length < x := by rw [hrow]; simp
        rw [if_neg hwn, hrow]
        by_cases ha : a < x
        · exact Or.inr (by rw [List.getElem?_replicate, if_pos ha])
        · refine Or.inl ?_
          rw [List.getElem?_replicate, if_neg ha]
          rfl

theorem guessType_eq_specInferKind (fmt : String) : guessType fmt = specInferKind fmt := by
  simp only [guessType, specInferKind]
  cases fmt.data.contains 'y' <;> cases fmt.data.contains 'd' <;>
    cases fmt.data.contains 'h' <;> cases fmt.data.contains '0' <;>
    cases fmt.data.contains '.' <;> rfl

theorem strLitAux_cons (c : Char) (l : List Char) :
    strLitAux (c :: l) =
      (if c = '\\' then
        match l with
        | [] => none
        | e :: rest2 => (strLitAux rest2).map (fun tl => escSeq e ++ tl)
      else if c = '"' then (if l.isEmpty then some [] else none)
      else (strLitAux l).map (fun tl => c :: tl)) := by
  rw [strLitAux.eq_def]

theorem strLitAux_quoteSub (mid : List Char) (hbs : '\\' ∉ mid) :
    strLitAux (quoteSub mid ++ ['"']) = some (doubleQuotes mid) := by
  induction mid with
  | nil => rfl
  | cons c rest ih =>
    have hc : c ≠ '\\' := fun h => hbs (h ▸ List.mem_cons_self c rest)
    have hrest : '\\' ∉ rest := fun h => hbs (List.mem_cons_of_mem _ h)
    by_cases hq : c = '"'
    · subst hq
      simp [quoteSub, strLitAux, escSeq, doubleQuotes, ih hrest]
    · simp only [quoteSub, if_neg hq, List.cons_append]
      rw [strLitAux_cons]
      simp [hc, hq, doubleQuotes, ih hrest]

/-- Composite behaviour of a write sequence with 1-based coordinates:
all writes succeed; the row count and every row length only grow; every
written row index is covered; every non-blank write leaves its row wide
enough; and a cell no write targets stays blank. -/
theorem applyWrites_props (ws : List (Nat × Nat × String)) :
    ∀ t : Table, (∀ w ∈ ws, 1 ≤ w.1 ∧ 1 ≤ w.2.1) →
    ∃ t2, applyWrites t ws = some t2
      ∧ t.rows.length ≤ t2.rows.length
      ∧ (∀ (i : Nat) (r : List String), t.rows[i]? = some r →
          ∃ r2 : List String, t2.rows[i]? = some r2 ∧ r.length ≤ r2.length)
      ∧ (∀ w ∈ ws, w.2.1 ≤ t2.rows.length)
      ∧ (∀ w ∈ ws, w.2.2 ≠ "" → w.2.2 ≠ " " →
          ∃ r : List String, t2.rows[w.2.1 - 1]? = some r ∧ w.1 ≤ r.length)
      ∧ (∀ a b : Nat, (∀ w ∈ ws, ¬(w.1 = a + 1 ∧ w.2.1 = b + 1)) →
          (∀ s : String, t.getCell (a + 1) (b + 1) = some s → s = " ") →
          (∀ s : String, t2.getCell (a + 1) (b + 1) = some s → s = " ")) := by
  induction ws with
  | nil =>
    intro t _
    exact ⟨t, rfl, le_refl _, fun i r hr => ⟨r, hr, le_refl _⟩, by simp, by simp,
      fun a b _ hblank => hblank⟩
  | cons w rest ih =>
    obtain ⟨x, y, v⟩ := w
    intro t hw
    have hx : 1 ≤ x := (hw _ (List.mem_cons_self _ _)).1
    have hy : 1 ≤ y := (hw _ (List.mem_cons_self _ _)).2
    have hrest : ∀ w2 ∈ rest, 1 ≤ w2.1 ∧ 1 ≤ w2.2.1 :=
      fun w2 hm => hw w2 (List.mem_cons_of_mem _ hm)
    obtain ⟨t2, happ, hmono, hrowmono, hcov, hwide, hfresh⟩ := ih (setitemN t x y v) hrest
    have hstep : t.setitem (x : Int) (y : Int) v = some (setitemN t x y v) := by
      have h := setitem_eq_setitemN t (x : Int) (y : Int) v (by omega) (by omega)
      simpa using h
    refine ⟨t2, ?_, ?_, ?_, ?_, ?_, ?_⟩
    · show (t.setitem (x : Int) (y : Int) v).bind (fun u => applyWrites u rest) = some t2
      rw [hstep, Option.some_bind, happ]
    · calc t.rows.length ≤ (setitemN t x y v).rows.length := by
            rw [setitemN_length]; omega
        _ ≤ t2.rows.length := hmono
    · intro i r hr
      obtain ⟨r1, hr1, hl1⟩ := setitemN_row_mono t x y v i r hr
      obtain ⟨r2, hr2, hl2⟩ := hrowmono i r1 hr1
      exact ⟨r2, hr2, le_trans hl1 hl2⟩
    · intro w2 hm
      rcases List.mem_cons.mp hm with heq | hm2
      · subst heq
        show y ≤ t2.rows.length
        calc y ≤ (setitemN t x y v).rows.length := by rw [setitemN_length]; omega
          _ ≤ t2.rows.length := hmono
      · exact hcov w2 hm2
    · intro w2 hm hv1 hv2
      rcases List.mem_cons.mp hm with heq | hm2
      · subst heq
        have hv : ¬(v = "" ∨ v = " ") := fun h => h.elim hv1 hv2
        obtain ⟨r1, hr1, hl1⟩ := setitemN_width t x y v hy hv
        obtain ⟨r2, hr2, hl2⟩ := hrowmono _ r1 hr1
        exact ⟨r2, hr2, le_trans hl1 hl2⟩
      · exact hwide w2 hm2 hv1 hv2
    · intro a b hnw hblank
      have hne : ¬(x = a + 1 ∧ y = b + 1) := by
        have h := hnw (x, y, v) (List.mem_cons_self _ _)
        simpa using h
      have hblank1 : ∀ s, (setitemN t x y v).getCell (a + 1) (b + 1) = some s → s = " " := by
        intro s hs
        rcases setitemN_fresh t x y v hx hy a b hne with hcase | hcase
        · exact hblank s (by rw [← hcase]; exact hs)
        · rw [hcase] at hs
          exact (Option.some_inj.mp hs).symm
      exact hfresh a b (fun w2 hm2 => hnw w2 (List.mem_cons_of_mem _ hm2)) hblank1

/-! ## Claim theorems -/

/-- C1 (confirmed): parsing the four lines
`ID;PClariWorks`, `P;P0.00`, `F;P0`, `C;X1;Y1;K42` on a fresh document
leaves the string "42" at table coordinate (1,1), selects the Mac epoch
(1904-01-01) as date base, and leaves the format registry with exactly
the one entry `("0.00", "float")`. -/
theorem c1_end_to_end :
    (initSYLK.parse "ID;PClariWorks\nP;P0.00\nF;P0\nC;X1;Y1;K42\n").map
      (fun st => (st.data.getCell 1 1, st.datebase, st.printformats)) =
      .ok (some "42", macepoch, [("0.00", "float")])
    ∧ macepoch = [1904, 1, 1, 0, 0, 0, 0, 0, 0] :=
  ⟨rfl, rfl⟩

/-- C10 (confirmed): on a freshly constructed document the cursor is at
(0, 0), and a `C` record carrying a `K` sub-field before any `X`/`Y`
raises an index error: the table write at (0, 0) indexes row -1 of the
empty row list. -/
theorem c10_fresh_cursor_index_error :
    initSYLK.curx = 0 ∧ initSYLK.cury = 0 ∧
    initSYLK.parseline "C;K42" = .error .indexError :=
  ⟨rfl, rfl, rfl⟩

/-- C6 counterexample: feeding the record `Q;Zfoo` records the full
sub-field text `"Zfoo"` under tag `Q`, not the one-letter discriminator
`"Z"` the claim states. -/
theorem c6_counterexample :
    (initSYLK.parseline "Q;Zfoo").map SYLK.unknown = .ok [("Q", ["Zfoo"])]
    ∧ "Z" ∉ (["Zfoo"] : List String) :=
  ⟨rfl, by decide⟩

/-- C6 (corrected): for a record whose tag is not one of the dispatched
tags, the parser records, for that tag, the full text of each
sub-field in the unknown-field report (the discriminator is merely its
first character). -/
theorem c6_amended_full_subfield (st : SYLK) (line tag : String) (subs : List String)
    (hsplit : splitFields line = tag :: subs)
    (hid : tag ≠ "ID") (hf : tag ≠ "F") (hc : tag ≠ "C") (hp : tag ≠ "P") :
    st.parseline line = .ok (subs.foldl (fun s f => s.addunknown tag f) st) := by
  unfold SYLK.parseline
  rw [hsplit]
  simp [hid, hf, hc, hp, Bind.bind, Except.bind]

/-- Witness for `c6_amended_full_subfield` at the record `Q;Zfoo`. -/
theorem c6_amended_witness :
    splitFields "Q;Zfoo" = "Q" :: ["Zfoo"] ∧
    initSYLK.parseline "Q;Zfoo" =
      .ok ((["Zfoo"] : List String).foldl (fun s f => s.addunknown "Q" f) initSYLK) :=
  ⟨rfl, c6_amended_full_subfield initSYLK "Q;Zfoo" "Q" ["Zfoo"] rfl
    (by decide) (by decide) (by decide) (by decide)⟩

/-- C7 counterexample: for the `K` token `"a""b"`, the escape step
produces `"a\"\"\"\"b"` and literal evaluation yields `a""""b` — the
internal doubled quote is duplicated again, not unescaped to the single
quote `a"b` the claim states. -/
theorem c7_counterexample :
    pyEval (escape "\"a\"\"b\"") = .ok (.pstr "a\"\"\"\"b")
    ∧ ("a\"\"\"\"b" : String) ≠ "a\"b" :=
  ⟨rfl, by decide⟩

/-- C7 (corrected): for a quoted token with backslash-free interior,
the escape step keeps the token surrounded by quotes but rewrites each
internal quote character to the backslash-escaped pair `\"\"`, so the
subsequent literal evaluation yields the interior with every quote
character doubled (in particular an interior without quotes is
preserved exactly). -/
theorem c7_amended_escape_doubles (mid : List Char) (hbs : '\\' ∉ mid) :
    escape (String.mk ('"' :: (mid ++ ['"']))) = String.mk ('"' :: (quoteSub mid ++ ['"']))
    ∧ pyEval (escape (String.mk ('"' :: (mid ++ ['"'])))) =
        .ok (.pstr (String.mk (doubleQuotes mid))) := by
  have hesc : escape (String.mk ('"' :: (mid ++ ['"']))) =
      String.mk ('"' :: (quoteSub mid ++ ['"'])) := by
    show String.mk ('"' :: (quoteSub (mid ++ ['"']).dropLast ++ ['"'])) = _
    rw [List.dropLast_concat]
  refine ⟨hesc, ?_⟩
  have step : pyEval (String.mk ('"' :: (quoteSub mid ++ ['"']))) =
      (match strLitAux (quoteSub mid ++ ['"']) with
        | some cs => Except.ok (PyVal.pstr (String.mk cs))
        | none => Except.error PyError.syntaxError) := rfl
  rw [hesc, step, strLitAux_quoteSub mid hbs]

/-- Witness for `c7_amended_escape_doubles` at interior `a""b`. -/
theorem c7_amended_witness :
    ('\\' ∉ (['a', '"', '"', 'b'] : List Char)) ∧
    (escape (String.mk ('"' :: (['a', '"', '"', 'b'] ++ ['"']))) =
        String.mk ('"' :: (quoteSub ['a', '"', '"', 'b'] ++ ['"']))
      ∧ pyEval (escape (String.mk ('"' :: (['a', '"', '"', 'b'] ++ ['"'])))) =
        .ok (.pstr (String.mk (doubleQuotes ['a', '"', '"', 'b'])))) :=
  ⟨by decide, c7_amended_escape_doubles ['a', '"', '"', 'b'] (by decide)⟩

/-- C3 (confirmed): a `P`-record pattern not found in `knownformats`
gets its kind from the heuristic cascade in the spec's order (first
match wins), and the cleaned pattern with that kind is appended to the
registry; in particular any pattern containing both `y` and `h`
classifies as datetime regardless of `0` and `.`. -/
theorem c3_inference_cascade (st : SYLK) (pat : String)
    (hunknown : lookupKnown (String.mk (pat.data.filter (fun ch => ch ≠ '\\'))) = none) :
    (st.p_fields ["P", "P" ++ pat] =
      .ok { st with printformats := st.printformats ++
        [(String.mk (pat.data.filter (fun ch => ch ≠ '\\')),
          specInferKind (String.mk (pat.data.filter (fun ch => ch ≠ '\\'))))] })
    ∧ (∀ fmt : String, fmt.data.contains 'y' = true → fmt.data.contains 'h' = true →
        guessType fmt = "datetime") := by
  constructor
  · have step : st.p_fields ["P", "P" ++ pat] =
        (match lookupKnown (String.mk (pat.data.filter (fun ch => ch ≠ '\\'))) with
          | some k => Except.ok { st with printformats := st.printformats ++
              [(String.mk (pat.data.filter (fun ch => ch ≠ '\\')), k)] }
          | none => Except.ok { st with printformats := st.printformats ++
              [(String.mk (pat.data.filter (fun ch => ch ≠ '\\')),
                guessType (String.mk (pat.data.filter (fun ch => ch ≠ '\\'))))] }) := rfl
    rw [step, hunknown, guessType_eq_specInferKind]
  · intro fmt hy hh
    have hy2 : 'y' ∈ fmt.data := by simpa using hy
    have hh2 : 'h' ∈ fmt.data := by simpa using hh
    simp [guessType, hy2, hh2]

/-- Witness for `c3_inference_cascade` at the pattern `yh0.`, which the
claim singles out: it contains `y`, `h`, `0` and `.` and classifies as
datetime. -/
theorem c3_witness :
    lookupKnown (String.mk ("yh0.".data.filter (fun ch => ch ≠ '\\'))) = none ∧
    ((initSYLK.p_fields ["P", "P" ++ "yh0."] =
      .ok { initSYLK with printformats := initSYLK.printformats ++
        [(String.mk ("yh0.".data.filter (fun ch => ch ≠ '\\')),
          specInferKind (String.mk ("yh0.".data.filter (fun ch => ch ≠ '\\'))))] })
    ∧ (∀ fmt : String, fmt.data.contains 'y' = true → fmt.data.contains 'h' = true →
        guessType fmt = "datetime")) :=
  ⟨by decide, c3_inference_cascade initSYLK "yh0." (by decide)⟩

/-- C2 counterexample: writing `"v"` at (2,1) and then the blank `" "`
at (5,1) leaves row 1 with only 2 cells — the claim demands at least 5
cells for every written coordinate, including blank writes, but a blank
write never widens an existing row. -/
theorem c2_counterexample :
    applyWrites Table.empty [(2, 1, "v"), (5, 1, " ")] = some ⟨[[" ", "v"]]⟩
    ∧ ¬ (5 ≤ ([" ", "v"] : List String).length) :=
  ⟨rfl, by decide⟩

/-- C2 (corrected): for every finite write sequence with 1-based
coordinates, after all writes the table has at least `y` rows for every
written `y`; for every written `(x, y)` whose value is non-blank the
`y`-th row has at least `x` cells; and every cell never explicitly
written reads as the single blank space. -/
theorem c2_amended_grid_invariant (ws : List (Nat × Nat × String))
    (hw : ∀ w ∈ ws, 1 ≤ w.1 ∧ 1 ≤ w.2.1) :
    ∃ t, applyWrites Table.empty ws = some t
      ∧ (∀ w ∈ ws, w.2.1 ≤ t.rows.length)
      ∧ (∀ w ∈ ws, w.2.2 ≠ "" → w.2.2 ≠ " " →
          ∃ r : List String, t.rows[w.2.1 - 1]? = some r ∧ w.1 ≤ r.length)
      ∧ (∀ x y : Nat, (∀ w ∈ ws, ¬(w.1 = x ∧ w.2.1 = y)) →
          ∀ s : String, t.getCell x y = some s → s = " ") := by
  obtain ⟨t, happ, _, _, hcov, hwide, hfresh⟩ := applyWrites_props ws Table.empty hw
  refine ⟨t, happ, hcov, hwide, ?_⟩
  intro x y hnw s hs
  rcases x with _ | a
  · rw [show t.getCell 0 y = none by cases y <;> rfl] at hs
    simp at hs
  · rcases y with _ | b
    · rw [show t.getCell (a + 1) 0 = none from rfl] at hs
      simp at hs
    · refine hfresh a b (fun w hm => hnw w hm) ?_ s hs
      intro s2 hs2
      rw [show Table.empty.getCell (a + 1) (b + 1) = none from rfl] at hs2
      simp at hs2

/-- Witness for `c2_amended_grid_invariant` on the write sequence
`[(2,1,"v"), (1,2," ")]`. -/
theorem c2_amended_witness :
    (∀ w ∈ ([(2, 1, "v"), (1, 2, " ")] : List (Nat × Nat × String)), 1 ≤ w.1 ∧ 1 ≤ w.2.1) ∧
    (∃ t, applyWrites Table.empty [(2, 1, "v"), (1, 2, " ")] = some t
      ∧ (∀ w ∈ ([(2, 1, "v"), (1, 2, " ")] : List (Nat × Nat × String)), w.2.1 ≤ t.rows.length)
      ∧ (∀ w ∈ ([(2, 1, "v"), (1, 2, " ")] : List (Nat × Nat × String)), w.2.2 ≠ "" → w.2.2 ≠ " " →
          ∃ r : List String, t.rows[w.2.1 - 1]? = some r ∧ w.1 ≤ r.length)
      ∧ (∀ x y : Nat,
          (∀ w ∈ ([(2, 1, "v"), (1, 2, " ")] : List (Nat × Nat × String)),
            ¬(w.1 = x ∧ w.2.1 = y)) →
          ∀ s : String, t.getCell x y = some s → s = " ")) :=
  ⟨by decide, c2_amended_grid_invariant [(2, 1, "v"), (1, 2, " ")] (by decide)⟩

/-- C8 (confirmed): a non-blank value written at 1-based `(x, y)` is
read back exactly from `(x, y)`; a blank (empty or single-space) write
at any coordinate leaves every existing row untouched — same length,
same stored cells. -/
theorem c8_write_read_and_blank_safety (t : Table) (x y : Nat) (v : String)
    (hx : 1 ≤ x) (hy : 1 ≤ y) (hv1 : v ≠ "") (hv2 : v ≠ " ") :
    (∃ t2, t.setitem (x : Int) (y : Int) v = some t2 ∧ t2.getCell x y = some v)
    ∧ (∀ (x2 y2 : Int) (b : String), (b = "" ∨ b = " ") → ∀ t3,
        t.setitem x2 y2 b = some t3 →
        ∀ i : Nat, i < t.rows.length → t3.rows[i]? = t.rows[i]?) := by
  constructor
  · refine ⟨setitemN t x y v, ?_, ?_⟩
    · have h := setitem_eq_setitemN t (x : Int) (y : Int) v (by omega) (by omega)
      simpa using h
    · exact setitemN_target t x y v hx hy hv1 hv2
  · intro x2 y2 b hb t3 hset i hi
    unfold Table.setitem at hset
    dsimp only at hset
    cases hg : listGetI (t.rows ++ List.replicate (y2.toNat - t.rows.length)
        (List.replicate x2.toNat " ")) (y2 - 1) with
    | none => rw [hg] at hset; simp at hset
    | some row =>
      rw [hg, Option.some_bind, if_pos hb] at hset
      have ht3 : t3 = ⟨t.rows ++ List.replicate (y2.toNat - t.rows.length)
          (List.replicate x2.toNat " ")⟩ := (Option.some_inj.mp hset).symm
      rw [ht3]
      exact List.getElem?_append_left hi

/-- Witness for `c8_write_read_and_blank_safety` at the table
`[["a"]]`, coordinate (1,1) and value `"42"`. -/
theorem c8_witness :
    ((1 : Nat) ≤ 1 ∧ ("42" : String) ≠ "" ∧ ("42" : String) ≠ " ") ∧
    ((∃ t2, (Table.mk [["a"]]).setitem ((1 : Nat) : Int) ((1 : Nat) : Int) "42" = some t2
        ∧ t2.getCell 1 1 = some "42")
     ∧ (∀ (x2 y2 : Int) (b : String), (b = "" ∨ b = " ") → ∀ t3,
          (Table.mk [["a"]]).setitem x2 y2 b = some t3 →
          ∀ i : Nat, i < (Table.mk [["a"]]).rows.length →
            t3.rows[i]? = (Table.mk [["a"]]).rows[i]?)) :=
  ⟨by decide, c8_write_read_and_blank_safety ⟨[["a"]]⟩ 1 1 "42"
    (by decide) (by decide) (by decide) (by decide)⟩

/-- C4 (confirmed, with `time` modelled as fixed-timezone calendar
arithmetic): a `K` token that evaluates to an integer `n` while the
current kind is `"date"` writes the date at `epoch seconds + n * 86400`
rendered day/month/year at the cursor; with the Unix epoch, offset 0
renders `01/01/1970` and offset 1 renders `02/01/1970`. -/
theorem c4_date_offset_rendering (st : SYLK) (tok : String) (n : Int)
    (hdate : st.currenttype = "date")
    (htok : pyEval (escape tok) = .ok (.pint n))
    (hx : 1 ≤ st.curx) (hy : 1 ≤ st.cury) :
    (∃ t, st.data.setitem st.curx st.cury
        (strftimeDMY (localtimeDate (mktime st.datebase + n * 24 * 60 * 60))) = some t
      ∧ st.c_field ["C", "K" ++ tok] = .ok { st with data := t })
    ∧ strftimeDMY (localtimeDate (mktime unixepoch + 0 * 24 * 60 * 60)) = "01/01/1970"
    ∧ strftimeDMY (localtimeDate (mktime unixepoch + 1 * 24 * 60 * 60)) = "02/01/1970" := by
  refine ⟨?_, by decide, by decide⟩
  refine ⟨setitemN st.data st.curx.toNat st.cury.toNat
      (strftimeDMY (localtimeDate (mktime st.datebase + n * 24 * 60 * 60))),
    setitem_eq_setitemN st.data st.curx st.cury _ hx hy, ?_⟩
  unfold SYLK.c_field
  rw [show (["C", "K" ++ tok] : List String).drop 1 = ["K" ++ tok] from rfl,
    foldlM_singleton, c_field_sub_K, htok]
  show (match st.data.setitem st.curx st.cury
      (if st.currenttype = "date"
       then strftimeDMY (localtimeDate (mktime st.datebase + n * 24 * 60 * 60))
       else toString n) with
    | some t => Except.ok { st with data := t }
    | none => Except.error PyError.indexError) = _
  rw [hdate, if_pos rfl, setitem_eq_setitemN st.data st.curx st.cury _ hx hy]

/-- Witness for `c4_date_offset_rendering`: a state with kind `"date"`,
cursor (1,1) and Unix epoch, token `0`. -/
theorem c4_witness :
    ({ initSYLK with currenttype := "date", curx := 1, cury := 1 } : SYLK).currenttype = "date" ∧
    pyEval (escape "0") = .ok (.pint 0) ∧
    ((∃ t, ({ initSYLK with currenttype := "date", curx := 1, cury := 1 } : SYLK).data.setitem
        ({ initSYLK with currenttype := "date", curx := 1, cury := 1 } : SYLK).curx
        ({ initSYLK with currenttype := "date", curx := 1, cury := 1 } : SYLK).cury
        (strftimeDMY (localtimeDate
          (mktime ({ initSYLK with currenttype := "date", curx := 1, cury := 1 } : SYLK).datebase
            + 0 * 24 * 60 * 60))) = some t
      ∧ ({ initSYLK with currenttype := "date", curx := 1, cury := 1 } : SYLK).c_field
          ["C", "K" ++ "0"] =
          .ok { ({ initSYLK with currenttype := "date", curx := 1, cury := 1 } : SYLK) with
            data := t })
    ∧ strftimeDMY (localtimeDate (mktime unixepoch + 0 * 24 * 60 * 60)) = "01/01/1970"
    ∧ strftimeDMY (localtimeDate (mktime unixepoch + 1 * 24 * 60 * 60)) = "02/01/1970") :=
  ⟨rfl, rfl, c4_date_offset_rendering
    { initSYLK with currenttype := "date", curx := 1, cury := 1 } "0" 0
    rfl rfl (by decide) (by decide)⟩

/-- C5 (confirmed): an `F` record whose `P` sub-field parses to a
non-negative index at or beyond the registry length fails with an index
error that `parseline` propagates to its caller. -/
theorem c5_out_of_range_format_index (st : SYLK) (line s : String) (n : Int)
    (hsplit : splitFields line = ["F", "P" ++ s])
    (hparse : pyInt s = .ok n) (hnn : 0 ≤ n)
    (hrange : (st.printformats.length : Int) ≤ n) :
    st.parseline line = .error .indexError := by
  rw [parseline_F st line ["P" ++ s] hsplit]
  unfold SYLK.f_field
  rw [show (["F", "P" ++ s] : List String).drop 1 = ["P" ++ s] from rfl,
    foldlM_singleton, f_field_sub_P, hparse]
  show (match listGetI st.printformats n with
    | some pr => Except.ok { st with currentformat := pr.1, currenttype := pr.2 }
    | none => Except.error PyError.indexError) = _
  rw [listGetI_nonneg _ _ hnn, List.getElem?_eq_none (by omega)]

/-- Witness for `c5_out_of_range_format_index`: `F;P0` on a fresh
document with an empty registry. -/
theorem c5_witness :
    splitFields "F;P0" = ["F", "P" ++ "0"] ∧ pyInt "0" = .ok 0 ∧ ((0 : Int) ≤ 0) ∧
    ((initSYLK.printformats.length : Int) ≤ 0) ∧
    initSYLK.parseline "F;P0" = .error .indexError :=
  ⟨rfl, rfl, by decide, by decide,
    c5_out_of_range_format_index initSYLK "F;P0" "0" 0 rfl rfl (by decide) (by decide)⟩

/-- C9 (confirmed): an `F` record sub-field `P` with a negative index
whose absolute value is at most the registry length raises no error: it
selects the entry counted from the end (index -1 is the most recently
registered entry) and sets the current format and kind from it. -/
theorem c9_negative_format_index (st : SYLK) (s : String) (i : Int)
    (hparse : pyInt s = .ok i) (hneg : i < 0)
    (habs : (-i).toNat ≤ st.printformats.length) :
    ∃ pr : String × String,
      st.printformats[st.printformats.length - (-i).toNat]? = some pr
      ∧ st.f_field ["F", "P" ++ s] = .ok { st with currentformat := pr.1, currenttype := pr.2 }
      ∧ (i = -1 → st.printformats.getLast? = some pr) := by
  have hj : st.printformats.length - (-i).toNat < st.printformats.length := by omega
  obtain ⟨pr, hpr⟩ : ∃ pr, st.printformats[st.printformats.length - (-i).toNat]? = some pr :=
    ⟨_, List.getElem?_eq_getElem hj⟩
  refine ⟨pr, hpr, ?_, ?_⟩
  · unfold SYLK.f_field
    rw [show (["F", "P" ++ s] : List String).drop 1 = ["P" ++ s] from rfl,
      foldlM_singleton, f_field_sub_P, hparse]
    have hg : listGetI st.printformats i = some pr := by
      unfold listGetI
      rw [if_pos hneg]
      dsimp only
      rw [if_pos (show (0 : Int) ≤ i + st.printformats.length by omega)]
      have h3 : (i + (st.printformats.length : Int)).toNat =
          st.printformats.length - (-i).toNat := by omega
      rw [h3]
      exact hpr
    show (match listGetI st.printformats i with
      | some pr2 => Except.ok { st with currentformat := pr2.1, currenttype := pr2.2 }
      | none => Except.error PyError.indexError) = _
    rw [hg]
  · intro h1
    subst h1
    rw [List.getLast?_eq_getElem?]
    have h1n : st.printformats.length - (-(-1 : Int)).toNat = st.printformats.length - 1 := by
      omega
    rw [← h1n]
    exact hpr

/-- Witness for `c9_negative_format_index`: `P-1` against a registry
holding two entries selects the second. -/
theorem c9_witness :
    pyInt "-1" = .ok (-1) ∧ ((-1 : Int) < 0) ∧
    ((-(-1 : Int)).toNat ≤
      ({ initSYLK with printformats := [("0.00", "float"), ("General", "string")] }
        : SYLK).printformats.length) ∧
    (∃ pr : String × String,
      ({ initSYLK with printformats := [("0.00", "float"), ("General", "string")] }
        : SYLK).printformats[
          ({ initSYLK with printformats := [("0.00", "float"), ("General", "string")] }
            : SYLK).printformats.length - (-(-1 : Int)).toNat]? = some pr
      ∧ ({ initSYLK with printformats := [("0.00", "float"), ("General", "string")] }
          : SYLK).f_field ["F", "P" ++ "-1"] =
          .ok { ({ initSYLK with printformats := [("0.00", "float"), ("General", "string")] }
            : SYLK) with currentformat := pr.1, currenttype := pr.2 }
      ∧ ((-1 : Int) = -1 →
          ({ initSYLK with printformats := [("0.00", "float"), ("General", "string")] }
            : SYLK).printformats.getLast? = some pr)) :=
  ⟨rfl, by decide, by decide,
    c9_negative_format_index
      { initSYLK with printformats := [("0.00", "float"), ("General", "string")] }
      "-1" (-1) rfl (by decide) (by decide)⟩

end SylkParser
